import Mathlib

/-!
# Verification of the AIDocMaster writer agent and paragraph store

Shallow embedding, in Lean 4, of the parts of the AIDocMaster backend that the
specification makes claims about:

* `backend/agent/writer_intent.py` — `normalize_parameters`;
* `backend/agent/auto_writer_agent.py` — `build_outline` and the event stream
  produced by `AutoWriterAgent.run`;
* `backend/agent/tools.py` — the `DocumentTools` paragraph store
  (`search_document_paragraphs`, `modify_document_paragraph`,
  `add_document_paragraph`, `delete_document_paragraph`).

Python dictionaries coming from the LLM are modelled by the `PyVal` type;
Python `float` is modelled by `ℚ` (exact clamping semantics; IEEE rounding and
NaN are out of scope); machine integers are `Int`/`Nat`.  Fallible Python code
(code that can raise) returns `Except PyErr`.  All definitions are executable.
-/

namespace AIDocMaster

/-! ## Python primitives -/

/-- A Python runtime error, by class. -/
inductive PyErr where
  | valueError
  | typeError
  | attributeError
deriving DecidableEq

/-- A Python value as it may appear in a JSON-derived dictionary.
`dict b` abstracts a nested dictionary, keeping only its emptiness `b`
(all that truthiness needs).  `float` is modelled exactly by `ℚ`. -/
inductive PyVal where
  | none
  | bool (b : Bool)
  | int (n : Int)
  | float (q : ℚ)
  | str (s : String)
  | list (l : List PyVal)
  | dict (isEmpty : Bool)

/-! All Python string operations are implemented structurally over `List Char`
(core `String.toLower`, `String.trim`, ... use well-founded recursion, which
the kernel cannot evaluate, so concrete claims could not be settled with
them).  ASCII semantics — every string a claim touches is ASCII. -/

/-- ASCII lowercase of one character (`str.lower` restricted to ASCII). -/
def charLower (c : Char) : Char :=
  if 'A' ≤ c ∧ c ≤ 'Z' then Char.ofNat (c.toNat + 32) else c

/-- Python `s.lower()` on the character list. -/
def lowerChars (cs : List Char) : List Char :=
  cs.map charLower

/-- Python `s.lower()` as a `String` operation. -/
def lowerStr (s : String) : String :=
  ⟨lowerChars s.data⟩

/-- ASCII whitespace, as recognized by `str.strip`/`str.split`. -/
def isWs (c : Char) : Bool :=
  c = ' ' || c = '\t' || c = '\n' || c = '\r'

/-- Python `s.strip()` on the character list. -/
def trimChars (cs : List Char) : List Char :=
  ((cs.dropWhile isWs).reverse.dropWhile isWs).reverse

/-- Python `s.strip()` as a `String` operation. -/
def trimStr (s : String) : String :=
  ⟨trimChars s.data⟩

/-- Helper for `splitWs`: `acc` is the (reversed) word being read. -/
def splitWsAux (acc : List Char) : List Char → List (List Char)
  | [] => if acc.isEmpty then [] else [acc.reverse]
  | c :: rest =>
    if isWs c then
      if acc.isEmpty then splitWsAux [] rest else acc.reverse :: splitWsAux [] rest
    else splitWsAux (c :: acc) rest

/-- Python `s.split()` with no argument: split on whitespace runs, dropping
empty fields. -/
def splitWs (cs : List Char) : List (List Char) :=
  splitWsAux [] cs

/-- Python truthiness, `bool(v)`. -/
def pyTruthy : PyVal → Bool
  | .none => false
  | .bool b => b
  | .int n => n != 0
  | .float q => q != 0
  | .str s => s != ""
  | .list l => !l.isEmpty
  | .dict isEmpty => !isEmpty

/-- Python `a or b`: `a` if truthy, else `b`. -/
def pyOr (a b : PyVal) : PyVal :=
  if pyTruthy a then a else b

/-- Truncation of a rational toward zero, the semantics of Python `int(float)`. -/
def ratTrunc (q : ℚ) : Int :=
  if q < 0 then -(Int.floor (-q)) else Int.floor q

/-- Parse the digit characters of a string, `Option.none` unless all are digits
and the list is non-empty. -/
def digitsToNat : List Char → Option Nat
  | [] => Option.none
  | cs =>
    if cs.all Char.isDigit then
      some (cs.foldl (fun acc c => acc * 10 + (c.toNat - 48)) 0)
    else Option.none

/-- Python `int(s)` on a string: strip, optional sign, digits
(digit-group underscores are not modelled; no claim uses them). -/
def intParse (cs : List Char) : Option Int :=
  match trimChars cs with
  | '-' :: ds => (digitsToNat ds).map (fun n => -(n : Int))
  | '+' :: ds => (digitsToNat ds).map (fun n => (n : Int))
  | ds => (digitsToNat ds).map (fun n => (n : Int))

/-- Python `float(s)` on a stripped string: optional sign, integer part,
optional fractional part (scientific notation is not modelled; no claim
touches it). -/
def floatParse (body0 : List Char) : Option ℚ :=
  let (neg, body) :=
    match body0 with
    | '-' :: rest => (true, rest)
    | '+' :: rest => (false, rest)
    | rest => (false, rest)
  let intPart := body.takeWhile Char.isDigit
  let rest := body.dropWhile Char.isDigit
  let q? : Option ℚ :=
    match rest with
    | [] => (digitsToNat intPart).map (fun n => (n : ℚ))
    | '.' :: fracPart =>
      if fracPart.all Char.isDigit ∧ (intPart ≠ [] ∨ fracPart ≠ []) then
        some (((digitsToNat intPart).getD 0 : ℚ) +
          ((digitsToNat fracPart).getD 0 : ℚ) / ((10 : ℚ) ^ fracPart.length))
      else Option.none
    | _ => Option.none
  q?.map (fun q => if neg then -q else q)

/-- Python `int(v)`: ints and bools pass through, floats truncate toward zero,
strings are parsed as integer literals (`ValueError` otherwise), anything else
is a `TypeError`. -/
def pyInt : PyVal → Except PyErr Int
  | .int n => .ok n
  | .bool b => .ok (if b then 1 else 0)
  | .float q => .ok (ratTrunc q)
  | .str s =>
    match intParse s.data with
    | some n => .ok n
    | Option.none => .error .valueError
  | _ => .error .typeError

/-- Python `float(v)`: floats pass through, ints and bools are widened,
strings are parsed as decimal literals (`ValueError` otherwise), anything else
is a `TypeError`. -/
def pyFloat : PyVal → Except PyErr ℚ
  | .float q => .ok q
  | .int n => .ok (n : ℚ)
  | .bool b => .ok (if b then 1 else 0)
  | .str s =>
    match floatParse (trimChars s.data) with
    | some q => .ok q
    | Option.none => .error .valueError
  | _ => .error .typeError

/-- Python `v.lower()`: defined on strings only, `AttributeError` otherwise. -/
def pyLower : PyVal → Except PyErr String
  | .str s => .ok (lowerStr s)
  | _ => .error .attributeError

/-- Python `str(v)`.  Exact for the cases any claim can reach (strings);
the rendering of floats, lists and dicts is abbreviated — no theorem
depends on it. -/
def pyStr : PyVal → String
  | .str s => s
  | .int n => toString n
  | .bool true => "True"
  | .bool false => "False"
  | .none => "None"
  | .float q => toString q
  | .list _ => "[...]"
  | .dict _ => "\x7b...\x7d"

/-! ## `writer_intent.normalize_parameters` -/

/-- The raw dictionary handed to `normalize_parameters`.  A missing key is
`PyVal.none`, which is exactly how `dict.get` presents it to the function. -/
structure RawParams where
  title : PyVal := .none
  topic : PyVal := .none
  language : PyVal := .none
  tone : PyVal := .none
  audience : PyVal := .none
  paragraph_count : PyVal := .none
  segments : PyVal := .none
  temperature : PyVal := .none
  max_tokens : PyVal := .none
  keywords : PyVal := .none
  format : PyVal := .none

/-- The normalized `WriterParameters` record. -/
structure WriterParameters where
  title : PyVal
  topic : PyVal
  language : String
  tone : PyVal
  audience : PyVal
  paragraph_count : Int
  temperature : ℚ
  max_tokens : Int
  keywords : List String
  format : PyVal

/-- Embeds `writer_intent.normalize_parameters`.  The fallible conversions
(`.lower()`, `int(...)`, `float(...)`) are sequenced in the evaluation order
of the Python dict literal: language, paragraph_count, temperature,
max_tokens. -/
def normalize_parameters (raw : RawParams) : Except PyErr WriterParameters :=
  match pyLower (pyOr raw.language (.str "zh")) with
  | .error e => .error e
  | .ok language =>
  match pyInt (pyOr raw.paragraph_count (pyOr raw.segments (.int 5))) with
  | .error e => .error e
  | .ok pc0 =>
  match pyFloat (pyOr raw.temperature (.float (7/10))) with
  | .error e => .error e
  | .ok temperature0 =>
  match pyInt (pyOr raw.max_tokens (.int 1200)) with
  | .error e => .error e
  | .ok maxTokens0 =>
    let pc1 := if pc0 < 3 then 3 else pc0
    let pc2 := if pc1 > 12 then 12 else pc1
    let keywordsVal := pyOr raw.keywords (.list [])
    let keywordsList :=
      match keywordsVal with
      | .list l => l
      | _ => []
    .ok {
      title := pyOr raw.title (pyOr raw.topic (.str "AI Generated Article")),
      topic := pyOr raw.topic (pyOr raw.title (.str "AI Generated Article")),
      language := language,
      tone := pyOr raw.tone (.str "professional"),
      audience := pyOr raw.audience (.str "general"),
      paragraph_count := pc2,
      temperature := max 0 (min temperature0 (3/2)),
      max_tokens := max 600 (min maxTokens0 4000),
      keywords := (keywordsList.filter pyTruthy).map (fun v => trimStr (pyStr v)),
      format := pyOr raw.format (.str "article"),
    }

/-- Is the value an int, float or bool (safe for `int(...)`/`float(...)`)? -/
def numericVal : PyVal → Bool
  | .int _ => true
  | .float _ => true
  | .bool _ => true
  | _ => false

/-- A field that cannot make `int(...)`/`float(...)` raise: falsy (so the
default is taken) or numeric. -/
def numericOrFalsy (v : PyVal) : Bool :=
  !pyTruthy v || numericVal v

/-- A field that cannot make `.lower()` raise: falsy or a string. -/
def strOrFalsy : PyVal → Bool
  | .str _ => true
  | v => !pyTruthy v

/-- The spec's worked normalization example:
`\x7bparagraph_count: 1, temperature: 3.0, max_tokens: 100, keywords: "x"\x7d`. -/
def exampleRaw : RawParams :=
  { paragraph_count := .int 1, temperature := .float 3, max_tokens := .int 100,
    keywords := .str "x" }

/-- The output the code produces on `exampleRaw`. -/
def exampleNormalized : WriterParameters :=
  { title := .str "AI Generated Article", topic := .str "AI Generated Article",
    language := "zh", tone := .str "professional", audience := .str "general",
    paragraph_count := 3, temperature := 3/2, max_tokens := 600,
    keywords := [], format := .str "article" }

/-- A raw dictionary supplying the in-range temperature 0.0. -/
def tempZeroRaw : RawParams := { temperature := .float 0 }

/-- The output the code produces on `tempZeroRaw`: the supplied temperature
0.0 is falsy, so the default 0.7 wins. -/
def tempZeroNormalized : WriterParameters :=
  { title := .str "AI Generated Article", topic := .str "AI Generated Article",
    language := "zh", tone := .str "professional", audience := .str "general",
    paragraph_count := 5, temperature := 7/10, max_tokens := 1200,
    keywords := [], format := .str "article" }

/-- A raw dictionary with a non-numeric string in a numeric field. -/
def abcCountRaw : RawParams := { paragraph_count := .str "abc" }

/-! ## `auto_writer_agent.build_outline` -/

/-- One entry of the produced outline. -/
structure OutlineEntry where
  title : String
  summary : String
deriving DecidableEq

/-- One element of the model payload for the outline call: either a dict
(whose `title`/`summary` keys may be absent — `Option.none` — or present,
possibly empty) or something that is not a dict. -/
inductive OutlineItem where
  | notDict
  | dict (title : Option String) (summary : Option String)

/-- The parsed payload of the outline call: a bare JSON array, an object
wrapping an `outline` array, or anything else. -/
inductive OutlinePayload where
  | array (items : List OutlineItem)
  | outlineObj (items : List OutlineItem)
  | other

/-- The item list the two accepted payload shapes contribute (empty for any
other shape, including a dict whose `outline` key is not a list). -/
def outlineItems : OutlinePayload → List OutlineItem
  | .array items => items
  | .outlineObj items => items
  | .other => []

/-- The placeholder title `"段落 {n}"`. -/
def placeholderTitle (n : Nat) : String :=
  "段落 " ++ toString n

/-- Python `a or b` on strings. -/
def pyOrStr (a b : String) : String :=
  if a = "" then b else a

/-- The loop body of `build_outline` over one payload item, `i` the 0-based
enumeration index.  A non-dict item gets the placeholder title and (`topic or
topic`, i.e.) the topic as summary; a dict item gets
`item.get("title", placeholder)` and `item.get("summary") or topic`. -/
def convertItem (topic : String) (i : Nat) : OutlineItem → OutlineEntry
  | .notDict => { title := placeholderTitle (i + 1), summary := topic }
  | .dict t s => { title := t.getD (placeholderTitle (i + 1)), summary := pyOrStr (s.getD "") topic }

/-- The `for i, item in enumerate(payload)` loop of `build_outline`. -/
def convertItems (topic : String) : Nat → List OutlineItem → List OutlineEntry
  | _, [] => []
  | i, it :: rest => convertItem topic i it :: convertItems topic (i + 1) rest

/-- Stage 1 of `build_outline`: the converted payload items, or — `if not
outline:` — a fresh placeholder outline of the full requested length. -/
def outlineBase (payload : OutlinePayload) (topic : String) (section_count : Nat) :
    List OutlineEntry :=
  if (convertItems topic 0 (outlineItems payload)).isEmpty then
    (List.range section_count).map
      (fun i => { title := placeholderTitle (i + 1), summary := topic })
  else convertItems topic 0 (outlineItems payload)

/-- Stage 2 of `build_outline`: pad with placeholder entries up to the
requested length.  This transcribes a CPython subtlety: `outline.extend(gen)`
consumes a generator whose every item evaluates `len(outline)` *after* the
items before it have already been appended, so the padded title numbers are
`L + 2*idx + 1` where `L` is the length before padding. -/
def outlinePadded (outline : List OutlineEntry) (topic : String) (section_count : Nat) :
    List OutlineEntry :=
  if outline.length < section_count then
    outline ++ (List.range (section_count - outline.length)).map
      (fun idx => { title := placeholderTitle (outline.length + 2 * idx + 1), summary := topic })
  else outline

/-- Embeds `auto_writer_agent.build_outline`, given the parsed payload, the
topic from the parameters and `paragraph_count`: convert, pad, truncate. -/
def build_outline (payload : OutlinePayload) (topic : String) (section_count : Nat) :
    List OutlineEntry :=
  (outlinePadded (outlineBase payload topic section_count) topic section_count).take
    section_count

/-! ## `tools.DocumentTools` — the paragraph store

The store is modelled in its paragraph mode (`content_type == "paragraphs"`),
the mode every claim concerns; each operation is a pure function of the
paragraph list.  Dict entries always carry the four keys the code creates. -/

/-- A stored paragraph. -/
structure Paragraph where
  id : String
  index : Int
  content : String
  text : String
deriving DecidableEq

/-- Does `needle` occur at the head of the second list? -/
def leadMatch : List Char → List Char → Bool
  | [], _ => true
  | _ :: _, [] => false
  | a :: as, b :: bs => a == b && leadMatch as bs

/-- Python `needle in haystack` on character lists. -/
def subFind (needle : List Char) : List Char → Bool
  | [] => needle.isEmpty
  | c :: rest => leadMatch needle (c :: rest) || subFind needle rest

/-- Drop up to and including the first occurrence of `c`, `Option.none` if
absent (`para_chars.index(char, char_pos) + 1` of the sequence matcher). -/
def dropAfter (c : Char) : List Char → Option (List Char)
  | [] => Option.none
  | x :: xs => if x == c then some xs else dropAfter c xs

/-- The greedy in-order character matcher of search strategy 5: how many
leading query characters can be matched, in order, against the text.  The
loop `break`s at the first unmatched character. -/
def seqCount : List Char → List Char → Nat
  | [], _ => 0
  | c :: cs, t =>
    match dropAfter c t with
    | some rest => 1 + seqCount cs rest
    | Option.none => 0

/-- The heading tags search strategy 3 looks for in the paragraph HTML. -/
def headingTagList : List (List Char) :=
  [['<', 'h', '1'], ['<', 'h', '2'], ['<', 'h', '3'],
   ['<', 'h', '4'], ['<', 'h', '5'], ['<', 'h', '6']]

/-- The per-paragraph scoring of `search_document_paragraphs`: the
`if/elif` cascade over strategies 1–5, first applicable branch only.
Returns the relevance score and match type, or `Option.none` when the
paragraph is excluded (score 0).  Note that a heading paragraph that fails
the strategy-3 inner test falls out of the whole `elif` chain: strategies
4 and 5 are never tried for it. -/
def scoreParagraph (queryLower : List Char) (queryWords : List (List Char)) (p : Paragraph) :
    Option (Nat × String) :=
  let paraText := lowerChars p.text.data
  let paraHtmlLower := lowerChars p.content.data
  if subFind queryLower paraText then
    some (100, "exact")
  else if !queryWords.isEmpty && queryWords.all (fun w => subFind w paraText) then
    some (80, "all_words")
  else if headingTagList.any (fun tg => subFind tg paraHtmlLower) then
    if subFind queryLower paraText || queryWords.any (fun w => subFind w paraText) then
      some (70, "heading")
    else Option.none
  else if !queryWords.isEmpty && queryWords.any (fun w => subFind w paraText) then
    some (50 + 10 * (queryWords.filter (fun w => subFind w paraText)).length, "partial")
  else if 3 ≤ queryLower.length then
    let sc := 5 * seqCount queryLower paraText
    if 0 < sc then some (sc, "sequence") else Option.none
  else Option.none

/-- One entry of the search result list. -/
structure SearchMatch where
  paragraph_id : String
  paragraph_index : Int
  text : String
  paragraph_content : String
  relevance_score : Nat
  match_type : String
deriving DecidableEq

/-- The result dictionary of `search_document_paragraphs`
(`total_matches` is absent on the empty-query branch). -/
structure SearchResult where
  found : Bool
  /-- The `matches` key (`matches` is reserved in Lean, hence the prime). -/
  matches' : List SearchMatch
  total_matches : Option Nat
  message : String
deriving DecidableEq

/-- The descending-score ordering used to sort matches. -/
def scoreGE (a b : SearchMatch) : Prop :=
  b.relevance_score ≤ a.relevance_score

instance : DecidableRel scoreGE :=
  fun a b => Nat.decLe b.relevance_score a.relevance_score

instance : IsTotal SearchMatch scoreGE :=
  ⟨fun a b => Nat.le_total b.relevance_score a.relevance_score⟩

instance : IsTrans SearchMatch scoreGE :=
  ⟨fun _ _ _ hab hbc => le_trans hbc hab⟩

/-- Python `", ".join`. -/
def joinComma : List String → String
  | [] => ""
  | [s] => s
  | s :: rest => s ++ ", " ++ joinComma rest

/-- The unsorted match list the search loop builds, in paragraph order:
one entry per paragraph whose cascade score is positive. -/
def searchCandidates (paragraphs : List Paragraph) (query : String) : List SearchMatch :=
  let queryLower := trimChars (lowerChars query.data)
  let queryWords := (splitWs queryLower).filter (fun w => 1 < w.length)
  paragraphs.filterMap (fun p =>
    (scoreParagraph queryLower queryWords p).map (fun sm =>
      ({ paragraph_id := p.id, paragraph_index := p.index, text := p.text,
         paragraph_content := p.content, relevance_score := sm.1,
         match_type := sm.2 } : SearchMatch)))

/-- Embeds `DocumentTools.search_document_paragraphs`.  The Python `list.sort` with
`reverse=True` is a stable descending sort, realized extensionally by
`List.insertionSort` with the `scoreGE` order (equal-score elements keep
their relative candidate order). -/
def search_document_paragraphs (paragraphs : List Paragraph) (query : String) : SearchResult :=
  if query = "" then
    { found := false, matches' := [], total_matches := Option.none,
      message := "Search query cannot be empty" }
  else
    let sorted := (searchCandidates paragraphs query).insertionSort scoreGE
    { found := !sorted.isEmpty, matches' := sorted, total_matches := some sorted.length,
      message :=
        if sorted.isEmpty then "No paragraphs found matching the search query"
        else "Found " ++ toString sorted.length ++ " paragraph(s) matching the search query" }

/-- Skip to just past the first closing angle bracket (`Option.none` if there
is none). -/
def tagClose : List Char → Option (List Char)
  | [] => Option.none
  | c :: rest => if c == '>' then some rest else tagClose rest

/-- The tag-stripping substitution (regex `<[^>]+>`, replaced by the empty
string): left-to-right scan removing each maximal
`<`…`>` group with at least one non-`>` character inside.  Fuel-based so the
kernel can evaluate it; any fuel ≥ the list length is exact. -/
def stripTagsFuel : Nat → List Char → List Char
  | 0, cs => cs
  | _, [] => []
  | fuel + 1, c :: rest =>
    if c == '<' then
      match rest with
      | [] => [c]
      | d :: rest2 =>
        if d == '>' then c :: stripTagsFuel fuel rest
        else
          match tagClose rest2 with
          | some after => stripTagsFuel fuel after
          | Option.none => c :: stripTagsFuel fuel rest
    else c :: stripTagsFuel fuel rest

/-- The `text` recomputation applied by modify and add: strip the `<[^>]+>`
tag groups, then strip whitespace. -/
def stripText (s : String) : String :=
  ⟨trimChars (stripTagsFuel s.data.length s.data)⟩

/-- The lookup loop of `modify_document_paragraph`: first paragraph whose id
matches the request exactly — or, the very same iteration, matches it
case-insensitively. -/
def findParaIdx (pid : String) : List Paragraph → Option Nat
  | [] => Option.none
  | p :: rest =>
    if p.id = pid then some 0
    else if lowerChars p.id.data = lowerChars pid.data then some 0
    else (findParaIdx pid rest).map (· + 1)

/-- Replace the element at position `i` (identity beyond the end). -/
def updateAt : Nat → (Paragraph → Paragraph) → List Paragraph → List Paragraph
  | _, _, [] => []
  | 0, f, p :: rest => f p :: rest
  | i + 1, f, p :: rest => p :: updateAt i f rest

/-- The result dictionary of `modify_document_paragraph`; `available_ids` and
`similar_ids` are present on the not-found branch only. -/
structure ModifyResult where
  success : Bool
  paragraph_id : String
  message : String
  available_ids : Option (List String)
  similar_ids : Option (List String)
  updated_paragraphs : List Paragraph
deriving DecidableEq

/-- Embeds `DocumentTools.modify_document_paragraph` (message text transcribed
without the quote characters around the id). -/
def modify_document_paragraph (paragraphs : List Paragraph)
    (paragraph_id new_content : String) : ModifyResult :=
  if paragraph_id = "" then
    { success := false, paragraph_id := paragraph_id,
      message := "Paragraph ID cannot be empty",
      available_ids := Option.none, similar_ids := Option.none,
      updated_paragraphs := paragraphs }
  else
    match findParaIdx paragraph_id paragraphs with
    | Option.none =>
      let available_ids := paragraphs.map (fun p => p.id)
      let similar_ids := available_ids.filter (fun pid =>
        subFind (lowerChars paragraph_id.data) (lowerChars pid.data) ||
        subFind (lowerChars pid.data) (lowerChars paragraph_id.data))
      let base := "Paragraph with ID " ++ paragraph_id ++ " not found."
      { success := false, paragraph_id := paragraph_id,
        message :=
          if !similar_ids.isEmpty then
            base ++ " Did you mean one of these: " ++ joinComma (similar_ids.take 3) ++ "?"
          else
            base ++ " Available paragraph IDs: " ++ joinComma (available_ids.take 5) ++
              (if 5 < available_ids.length then "..." else ""),
        available_ids := some available_ids, similar_ids := some similar_ids,
        updated_paragraphs := paragraphs }
    | some i =>
      let updated := updateAt i
        (fun p => { p with content := new_content, text := stripText new_content }) paragraphs
      { success := true, paragraph_id := paragraph_id,
        message := "Successfully updated paragraph " ++ paragraph_id,
        available_ids := Option.none, similar_ids := Option.none,
        updated_paragraphs := updated }

/-- The result dictionary of add / delete. -/
structure EditResult where
  success : Bool
  paragraph_id : String
  message : String
  updated_paragraphs : List Paragraph
deriving DecidableEq

/-- Python `list.insert` position normalization: a negative index counts from
the end (floored at 0, via `Int.toNat`); a large index appends. -/
def pyInsertPos (len : Nat) (i : Int) : Nat :=
  if i < 0 then ((len : Int) + i).toNat else i.toNat

/-- Python `list.insert` at a normalized position (appends past the end). -/
def listInsertAt : Nat → Paragraph → List Paragraph → List Paragraph
  | 0, a, l => a :: l
  | _ + 1, a, [] => [a]
  | n + 1, a, x :: xs => x :: listInsertAt n a xs

/-- The re-indexing pass that stores each ordinal position back into the
`index` field of every paragraph. -/
def reindexFrom (n : Nat) : List Paragraph → List Paragraph
  | [] => []
  | p :: rest => { p with index := (n : Int) } :: reindexFrom (n + 1) rest

/-- Re-index every paragraph to its array position. -/
def reindex (ps : List Paragraph) : List Paragraph :=
  reindexFrom 0 ps

/-- Embeds `DocumentTools.add_document_paragraph`: the new id is
`para-{current count}`, the paragraph is inserted, and the whole list is
re-indexed. -/
def add_document_paragraph (paragraphs : List Paragraph) (index : Int) (content : String) :
    EditResult :=
  let new_para_id := "para-" ++ toString paragraphs.length
  let new_para : Paragraph :=
    { id := new_para_id, index := index, content := content, text := stripText content }
  let reindexed := reindex (listInsertAt (pyInsertPos paragraphs.length index) new_para paragraphs)
  { success := true, paragraph_id := new_para_id,
    message := "Successfully added paragraph at index " ++ toString index,
    updated_paragraphs := reindexed }

/-- The lookup loop of `delete_document_paragraph` (exact id match only). -/
def findExactIdx (pid : String) : List Paragraph → Option Nat
  | [] => Option.none
  | p :: rest => if p.id = pid then some 0 else (findExactIdx pid rest).map (· + 1)

/-- Embeds `DocumentTools.delete_document_paragraph`: remove the paragraph and
re-index the remainder; not-found returns a failure result with the store
untouched. -/
def delete_document_paragraph (paragraphs : List Paragraph) (paragraph_id : String) :
    EditResult :=
  match findExactIdx paragraph_id paragraphs with
  | Option.none =>
    { success := false, paragraph_id := paragraph_id,
      message := "Paragraph with ID " ++ paragraph_id ++ " not found",
      updated_paragraphs := paragraphs }
  | some i =>
    { success := true, paragraph_id := paragraph_id,
      message := "Successfully deleted paragraph " ++ paragraph_id,
      updated_paragraphs := reindex (paragraphs.eraseIdx i) }

/-- A mutating store operation, for claims over operation sequences. -/
inductive StoreOp where
  | add (index : Int) (content : String)
  | delete (paragraph_id : String)

/-- Apply one operation to the store. -/
def applyOp (ps : List Paragraph) : StoreOp → List Paragraph
  | .add i c => (add_document_paragraph ps i c).updated_paragraphs
  | .delete pid => (delete_document_paragraph ps pid).updated_paragraphs

/-- Apply a sequence of operations to the store. -/
def applyOps : List StoreOp → List Paragraph → List Paragraph
  | [], ps => ps
  | op :: ops, ps => applyOps ops (applyOp ps op)

/-- The indexing invariant: every paragraph's `index` field equals its ordinal
position in the array. -/
def wellIndexed (ps : List Paragraph) : Prop :=
  ∀ i (h : i < ps.length), (ps.get ⟨i, h⟩).index = (i : Int)

/-! ## `AutoWriterAgent.run` — the emitted event stream

The generator is embedded as a pure function from the external behaviour (the
intent and parameter LLM calls, the LangGraph stream, the fallback
`workflow.invoke`) to the list of emitted event types.  Event payloads play no
role in the terminal-event claim, so events are tracked by their `type` tag. -/

/-- The `type` tag of an emitted event. -/
inductive EvTy where
  | status
  | parameters
  | section_progress
  | article_draft
  | complete
  | error
deriving DecidableEq

/-- A drafted section (`{"title": ..., "content": ...}`). -/
structure DraftSection where
  title : String
  content : String

/-- The value the stream loop sees under one key of a stream event:
either not a dict, or a dict whose relevant keys
(`completed_sections`, `final_article_markdown`, `final_article_html`)
are present or absent. -/
inductive NodeUpdate where
  | notDict
  | dict (completed : Option (List DraftSection))
         (finalMd : Option String) (finalHtml : Option String)

/-- The mutable locals of the stream loop (`section_index`,
`compile_handled`; `drafted_sections` only feeds payloads). -/
structure LoopSt where
  sectionIndex : Nat
  compileHandled : Bool

/-- The body of `for node_name, state_update in event.items()`: the events
yielded for one item, the new loop state, and whether the body raised
(`completed_sections[-1]` on an empty list).  `count` is
`parameters["paragraph_count"]`. -/
def procItem (count : Nat) (st : LoopSt) : String × NodeUpdate → List EvTy × LoopSt × Bool
  | (name, upd) =>
    if name = "outline" then
      ([.status], st, false)
    else if name = "write_section" then
      match upd with
      | .dict (some secs) _ _ =>
        match secs.getLast? with
        | Option.none => ([], st, true)
        | some _ =>
          let si := st.sectionIndex + 1
          let firstEvs := if si = 1 then [EvTy.status] else []
          let isLast := count ≤ si
          let lastEvs := if isLast then [EvTy.status, EvTy.complete] else []
          (firstEvs ++ [EvTy.status, EvTy.section_progress, EvTy.article_draft] ++ lastEvs,
           { sectionIndex := si, compileHandled := st.compileHandled || isLast }, false)
      | _ => ([], st, false)
    else if name = "compile" then
      match upd with
      | .dict _ _ _ => ([.status, .complete], { st with compileHandled := true }, false)
      | .notDict => ([], st, false)
    else ([], st, false)

/-- Run the loop body over the items of one stream event, stopping at a
raise. -/
def procItems (count : Nat) (st : LoopSt) : List (String × NodeUpdate) → List EvTy × LoopSt × Bool
  | [] => ([], st, false)
  | it :: rest =>
    let r := procItem count st it
    if r.2.2 then (r.1, r.2.1, true)
    else
      let r2 := procItems count r.2.1 rest
      (r.1 ++ r2.1, r2.2.1, r2.2.2)

/-- Run the loop over the whole event stream. -/
def procEvents (count : Nat) (st : LoopSt) : List (List (String × NodeUpdate)) →
    List EvTy × LoopSt × Bool
  | [] => ([], st, false)
  | ev :: rest =>
    let r := procItems count st ev
    if r.2.2 then (r.1, r.2.1, true)
    else
      let r2 := procEvents count r.2.1 rest
      (r.1 ++ r2.1, r2.2.1, r2.2.2)

/-- One run's worth of external behaviour.  `Option.none` for `intent` or
`params` means that LLM call raised; `streamRaises` means the stream raised
after yielding `streamEvents`; `invokeResult` is the final state of the
fallback `workflow.invoke` (`Option.none` = it raised), with the presence of
the `final_article_markdown` / `final_article_html` keys. -/
structure RunBehaviour where
  intentShouldWrite : Option Bool
  paragraphCount : Option Nat
  streamEvents : List (List (String × NodeUpdate))
  streamRaises : Bool
  invokeResult : Option (Option String × Option String)

/-- The sequence of event types `AutoWriterAgent.run` emits under the given
behaviour.  Faithful to the source control flow: intent rejection and the
outer `except` yield one `error`; the fallback branch runs only when
`compile_handled` is still false, and its own `except` swallows the
exception — emitting nothing. -/
def runEvents (b : RunBehaviour) : List EvTy :=
  EvTy.status ::
    (match b.intentShouldWrite with
    | Option.none => [EvTy.error]
    | some shouldWrite =>
      if !shouldWrite then [EvTy.error]
      else
        EvTy.status ::
          (match b.paragraphCount with
          | Option.none => [EvTy.error]
          | some count =>
            EvTy.parameters :: EvTy.status ::
              (let r := procEvents count { sectionIndex := 0, compileHandled := false }
                b.streamEvents
              if r.2.2 then r.1 ++ [EvTy.error]
              else if b.streamRaises then r.1 ++ [EvTy.error]
              else if r.2.1.compileHandled then r.1
              else
                match b.invokeResult with
                | Option.none => r.1
                | some (md, html) =>
                  if md.isSome || html.isSome then r.1 ++ [EvTy.status, EvTy.complete]
                  else r.1)))

/-- Is the event a terminal (`complete` or `error`) event? -/
def isTerminal (e : EvTy) : Bool :=
  e == EvTy.complete || e == EvTy.error

/-! ## Concrete fixtures used by the claims -/

/-- The spec's three-paragraph example store. -/
def exParagraphs : List Paragraph :=
  [{ id := "para-0", index := 0, content := "<p>The quick fox</p>", text := "The quick fox" },
   { id := "para-1", index := 1, content := "<p>A lazy fox sleeps</p>", text := "A lazy fox sleeps" },
   { id := "para-2", index := 2, content := "<p>Unrelated text</p>", text := "Unrelated text" }]

/-- A heading paragraph with no word in common with the query `"zyx"` but a
one-character in-order subsequence of it. -/
def headingSeqPara : Paragraph :=
  { id := "para-0", index := 0, content := "<h1>xyz</h1>", text := "xyz" }

/-- A paragraph matching one distinct word of the query `"fox fox cat"`. -/
def dupWordsPara : Paragraph :=
  { id := "para-0", index := 0, content := "<p>a fox</p>", text := "a fox" }

/-- A store where an early paragraph matches an id only case-insensitively and
a later one matches it exactly. -/
def ciParagraphs : List Paragraph :=
  [{ id := "PARA-0", index := 0, content := "<p>a</p>", text := "a" },
   { id := "para-0", index := 1, content := "<p>b</p>", text := "b" }]

/-- The id `add_document_paragraph` derives from a count of `n`. -/
def paraId (n : Nat) : String :=
  "para-" ++ toString n

/-- The match entry a paragraph receives on search strategy 1 (score 100,
type `exact`). -/
def exactMatchOf (p : Paragraph) : SearchMatch :=
  { paragraph_id := p.id, paragraph_index := p.index, text := p.text,
    paragraph_content := p.content, relevance_score := 100, match_type := "exact" }

/-- A gateway/stream behaviour of a fully successful run reported as LangGraph
node updates: outline, three drafted sections, then the compile node. -/
def behaviourDup : RunBehaviour :=
  { intentShouldWrite := some true, paragraphCount := some 3,
    streamEvents :=
      [[("outline", .dict Option.none Option.none Option.none)],
       [("write_section", .dict (some [{ title := "s1", content := "c1" }]) Option.none Option.none)],
       [("write_section", .dict (some [{ title := "s2", content := "c2" }]) Option.none Option.none)],
       [("write_section", .dict (some [{ title := "s3", content := "c3" }]) Option.none Option.none)],
       [("compile", .dict Option.none (some "md") (some "html"))]],
    streamRaises := false, invokeResult := some (some "md", some "html") }

/-- A behaviour where the stream yields nothing usable and the fallback
`workflow.invoke` raises: its exception is swallowed. -/
def behaviourSwallow : RunBehaviour :=
  { intentShouldWrite := some true, paragraphCount := some 3,
    streamEvents := [], streamRaises := false, invokeResult := Option.none }

/-! ## Decimal-digit machinery (to prove assigned ids distinct) -/

/-- The decimal digit characters of `n`, most significant first — the
mathematical spine of core's fuelled `Nat.toDigitsCore`. -/
def digitsRec (n : Nat) : List Char :=
  if h : n / 10 = 0 then [Nat.digitChar (n % 10)]
  else
    have hn : 0 < n := Nat.pos_of_ne_zero (fun h0 => h (by simp [h0]))
    digitsRec (n / 10) ++ [Nat.digitChar (n % 10)]
termination_by n
decreasing_by exact Nat.div_lt_self hn (by norm_num)

/-- The numeric value of a decimal digit character. -/
def digitVal (c : Char) : Nat :=
  c.toNat - 48

/-- Read a digit string back as a number. -/
def digitsVal (l : List Char) : Nat :=
  l.foldl (fun acc c => acc * 10 + digitVal c) 0

/-- Decidability of the store indexing invariant. -/
instance wellIndexedDecidable (ps : List Paragraph) : Decidable (wellIndexed ps) :=
  Nat.decidableBallLT ps.length (fun i h => (ps.get ⟨i, h⟩).index = (i : Int))

/-! # Theorems -/

/-! ## Decimal representation: `Nat.repr` is injective -/

theorem toDigitsCore_eq_digitsRec :
    ∀ (fuel n : Nat) (ds : List Char), n < fuel →
      Nat.toDigitsCore 10 fuel n ds = digitsRec n ++ ds := by
  intro fuel
  induction fuel with
  | zero => intro n ds h; omega
  | succ f ih =>
    intro n ds h
    show (if n / 10 = 0 then Nat.digitChar (n % 10) :: ds
      else Nat.toDigitsCore 10 f (n / 10) (Nat.digitChar (n % 10) :: ds)) = _
    by_cases hdiv : n / 10 = 0
    · rw [if_pos hdiv]
      unfold digitsRec
      rw [dif_pos hdiv, List.singleton_append]
    · rw [if_neg hdiv]
      have hpos : 0 < n := Nat.pos_of_ne_zero (fun h0 => hdiv (by simp [h0]))
      have hlt : n / 10 < n := Nat.div_lt_self hpos (by norm_num)
      rw [ih (n / 10) _ (by omega)]
      conv_rhs => rw [digitsRec.eq_def]
      rw [dif_neg hdiv, List.append_assoc, List.singleton_append]

theorem repr_data_eq_digitsRec (n : Nat) : (Nat.repr n).data = digitsRec n := by
  show (Nat.toDigits 10 n).asString.data = digitsRec n
  show Nat.toDigitsCore 10 (n + 1) n [] = digitsRec n
  rw [toDigitsCore_eq_digitsRec (n + 1) n [] (Nat.lt_succ_self n), List.append_nil]

theorem digitVal_digitChar : ∀ r, r < 10 → digitVal (Nat.digitChar r) = r := by decide

theorem digitsVal_digitsRec (n : Nat) : digitsVal (digitsRec n) = n := by
  induction n using Nat.strong_induction_on with
  | _ n ih =>
    unfold digitsRec
    by_cases hdiv : n / 10 = 0
    · rw [dif_pos hdiv]
      have hn : n < 10 := (Nat.div_eq_zero_iff (by norm_num)).mp hdiv
      show 0 * 10 + digitVal (Nat.digitChar (n % 10)) = n
      rw [digitVal_digitChar (n % 10) (Nat.mod_lt n (by norm_num))]
      omega
    · rw [dif_neg hdiv]
      have hpos : 0 < n := Nat.pos_of_ne_zero (fun h0 => hdiv (by simp [h0]))
      have hlt : n / 10 < n := Nat.div_lt_self hpos (by norm_num)
      unfold digitsVal
      rw [List.foldl_append]
      have hval := ih (n / 10) hlt
      unfold digitsVal at hval
      rw [hval]
      show n / 10 * 10 + digitVal (Nat.digitChar (n % 10)) = n
      rw [digitVal_digitChar (n % 10) (Nat.mod_lt n (by norm_num))]
      omega

theorem natRepr_inj {m n : Nat} (h : Nat.repr m = Nat.repr n) : m = n := by
  have hd : digitsRec m = digitsRec n := by
    rw [← repr_data_eq_digitsRec, ← repr_data_eq_digitsRec, h]
  have hv := congrArg digitsVal hd
  rwa [digitsVal_digitsRec, digitsVal_digitsRec] at hv

theorem paraId_inj {m n : Nat} (h : paraId m = paraId n) : m = n := by
  unfold paraId at h
  have hd := congrArg String.data h
  rw [String.data_append, String.data_append] at hd
  have hts : (toString m).data = (toString n).data := List.append_cancel_left hd
  exact natRepr_inj (show Nat.repr m = Nat.repr n from congrArg String.mk hts)

theorem paraId_not_mem_range (n : Nat) : paraId n ∉ (List.range n).map paraId := by
  intro hmem
  rw [List.mem_map] at hmem
  obtain ⟨m, hm, he⟩ := hmem
  rw [List.mem_range] at hm
  exact absurd (paraId_inj he) (Nat.ne_of_lt hm)

/-! ## Store helper lemmas -/

theorem reindexFrom_map_id : ∀ (n : Nat) (l : List Paragraph),
    (reindexFrom n l).map (fun p => p.id) = l.map (fun p => p.id)
  | _, [] => rfl
  | n, _ :: rest => by
    simp only [reindexFrom, List.map_cons, reindexFrom_map_id (n + 1) rest]

theorem listInsertAt_perm : ∀ (pos : Nat) (a : Paragraph) (l : List Paragraph),
    (listInsertAt pos a l).Perm (a :: l)
  | 0, _, _ => List.Perm.refl _
  | _ + 1, _, [] => List.Perm.refl _
  | pos + 1, a, x :: xs =>
    ((listInsertAt_perm pos a xs).cons x).trans (List.Perm.swap a x xs)

theorem reindexFrom_length : ∀ (n : Nat) (l : List Paragraph),
    (reindexFrom n l).length = l.length
  | _, [] => rfl
  | n, _ :: rest => by
    simp only [reindexFrom, List.length_cons, reindexFrom_length (n + 1) rest]

theorem reindexFrom_get : ∀ (n : Nat) (l : List Paragraph) (i : Nat)
    (h : i < (reindexFrom n l).length),
    ((reindexFrom n l).get ⟨i, h⟩).index = ((n + i : Nat) : Int)
  | _, _ :: _, 0, _ => by simp [reindexFrom]
  | n, _ :: rest, i + 1, h => by
    simp only [reindexFrom, List.get_cons_succ]
    rw [reindexFrom_get (n + 1) rest i]
    push_cast
    ring
  | _, [], i, h => absurd h (by simp [reindexFrom])

theorem wellIndexed_reindex (l : List Paragraph) : wellIndexed (reindex l) := by
  intro i h
  unfold reindex at h ⊢
  rw [reindexFrom_get 0 l i h]
  simp

theorem applyOp_wellIndexed (ps : List Paragraph) (op : StoreOp) (h : wellIndexed ps) :
    wellIndexed (applyOp ps op) := by
  cases op with
  | add i c => exact wellIndexed_reindex _
  | delete pid =>
    show wellIndexed (delete_document_paragraph ps pid).updated_paragraphs
    unfold delete_document_paragraph
    cases hf : findExactIdx pid ps with
    | none => exact h
    | some i => exact wellIndexed_reindex _

/-- C9: after every finite sequence of `add_document_paragraph` and
`delete_document_paragraph` operations on a store satisfying the indexing
invariant, every paragraph's `index` field equals its ordinal position in the
paragraph array (indices are the contiguous sequence `0..N-1` in array
order). -/
theorem c9_reindex_invariant (ops : List StoreOp) (paragraphs : List Paragraph)
    (h : wellIndexed paragraphs) : wellIndexed (applyOps ops paragraphs) := by
  induction ops generalizing paragraphs with
  | nil => exact h
  | cons op ops ih => exact ih (applyOp paragraphs op) (applyOp_wellIndexed paragraphs op h)

/-- Witness for C9 at a concrete store and operation sequence. -/
theorem c9_reindex_invariant_witness :
    wellIndexed (applyOps [StoreOp.add 0 "<p>z</p>", StoreOp.delete "para-1",
      StoreOp.add (-1) "<p>w</p>"] exParagraphs) :=
  c9_reindex_invariant _ exParagraphs (by decide)

/-- C8 (amended): the id assigned by `add_document_paragraph` is
`para-{current count}`; as long as the store's ids are (a permutation of)
`para-0 … para-(count-1)` — which initialization establishes and every add
preserves — the assigned id is fresh: it differs from the id of every
paragraph currently in the store, and the updated store's ids are again a
permutation of `para-0 … para-count`.  (After a deletion the premise fails
and the id can collide — see the counterexample.) -/
theorem c8_add_id_fresh_without_delete (paragraphs : List Paragraph) (index : Int)
    (content : String)
    (hids : (paragraphs.map (fun p => p.id)).Perm
      ((List.range paragraphs.length).map paraId)) :
    (add_document_paragraph paragraphs index content).paragraph_id =
        paraId paragraphs.length ∧
    (add_document_paragraph paragraphs index content).paragraph_id ∉
        paragraphs.map (fun p => p.id) ∧
    ((add_document_paragraph paragraphs index content).updated_paragraphs.map
        (fun p => p.id)).Perm ((List.range (paragraphs.length + 1)).map paraId) := by
  refine ⟨rfl, ?_, ?_⟩
  · intro hmem
    exact paraId_not_mem_range paragraphs.length (hids.mem_iff.mp hmem)
  · show ((reindex (listInsertAt (pyInsertPos paragraphs.length index) _ paragraphs)).map
      (fun p => p.id)).Perm _
    unfold reindex
    rw [reindexFrom_map_id]
    refine ((listInsertAt_perm _ _ _).map (fun p => p.id)).trans ?_
    rw [List.map_cons]
    refine (hids.cons _).trans ?_
    rw [List.range_succ, List.map_append, List.map_singleton]
    exact (List.perm_append_singleton _ _).symm

/-- Witness for the amended C8 at a concrete store. -/
theorem c8_add_id_fresh_witness :
    (add_document_paragraph exParagraphs 0 "<p>w</p>").paragraph_id ∉
      exParagraphs.map (fun p => p.id) :=
  (c8_add_id_fresh_without_delete exParagraphs 0 "<p>w</p>" (by decide)).2.1

/-- C8 (counterexample): ids derived from the current count are reused after a
deletion.  Deleting `para-0` from the three-paragraph store leaves ids
`para-1, para-2`; the next add is assigned id `para-2` — an id both
previously issued and still present — so the store ends with a duplicate id. -/
theorem c8_id_reused_after_delete :
    (delete_document_paragraph exParagraphs "para-0").updated_paragraphs.map
        (fun p => p.id) = ["para-1", "para-2"] ∧
    (add_document_paragraph
        (delete_document_paragraph exParagraphs "para-0").updated_paragraphs
        2 "<p>d</p>").paragraph_id = "para-2" ∧
    (add_document_paragraph
        (delete_document_paragraph exParagraphs "para-0").updated_paragraphs
        2 "<p>d</p>").updated_paragraphs.map (fun p => p.id) =
      ["para-1", "para-2", "para-2"] := by decide

/-- C1 (code bug): the run embedding evaluated at two realizable
gateway/stream behaviours.  Under `behaviourDup` — a fully successful run
whose stream reports the last drafted section and then the compile node —
the emitted stream contains two terminal events (two `complete`s: the
last-section shortcut fires and the compile branch, which never consults
`compile_handled`, fires again).  Under `behaviourSwallow` — the stream
yields no usable node events and the fallback `workflow.invoke` raises — the
inner `except` only logs, and the stream ends with no terminal event at
all. -/
theorem c1_terminal_event_not_unique :
    ((runEvents behaviourDup).filter isTerminal).length = 2 ∧
    (runEvents behaviourDup).count EvTy.complete = 2 ∧
    ((runEvents behaviourSwallow).filter isTerminal).length = 0 := by decide

/-! ## Modify lookup lemmas -/

theorem findParaIdx_eq_none (pid : String) (ps : List Paragraph)
    (h : ∀ p ∈ ps, p.id ≠ pid ∧ lowerChars p.id.data ≠ lowerChars pid.data) :
    findParaIdx pid ps = Option.none := by
  induction ps with
  | nil => rfl
  | cons p rest ih =>
    have hp := h p (List.mem_cons_self p rest)
    have hrest := ih (fun q hq => h q (List.mem_cons_of_mem p hq))
    simp [findParaIdx, hp.1, hp.2, hrest]

theorem findParaIdx_eq_some (pid : String) : ∀ (ps : List Paragraph) (i : Nat) (q : Paragraph),
    ps[i]? = some q →
    (q.id = pid ∨ lowerChars q.id.data = lowerChars pid.data) →
    (∀ p ∈ ps.take i, p.id ≠ pid ∧ lowerChars p.id.data ≠ lowerChars pid.data) →
    findParaIdx pid ps = some i := by
  intro ps
  induction ps with
  | nil => intro i q hget; simp at hget
  | cons p rest ih =>
    intro i q hget hmatch hbefore
    cases i with
    | zero =>
      have hq : p = q := by simpa using hget
      subst hq
      rcases hmatch with he | hci
      · simp [findParaIdx, he]
      · by_cases hex : p.id = pid
        · simp [findParaIdx, hex]
        · simp [findParaIdx, hex, hci]
    | succ j =>
      have hp := hbefore p (by simp)
      have hrest := ih j q (by simpa using hget) hmatch
        (fun r hr => hbefore r (by simp [hr]))
      simp [findParaIdx, hp.1, hp.2, hrest]

/-- C6 (amended): for every non-empty `paragraph_id` matching no stored id
exactly or case-insensitively, `modify_document_paragraph` returns a failure
result listing every existing id in `available_ids` and the bidirectional
case-insensitive substring matches in `similar_ids`, and leaves the store
unchanged; in particular `para-99` against the `para-0..para-2` store yields
`available_ids = [para-0, para-1, para-2]` and no mutation.  (The empty id
takes an earlier branch whose failure result carries no id lists — see the
counterexample.) -/
theorem c6_not_found_failure (paragraphs : List Paragraph) (pid newContent : String)
    (hne : pid ≠ "")
    (hnomatch : ∀ p ∈ paragraphs, p.id ≠ pid ∧ lowerChars p.id.data ≠ lowerChars pid.data) :
    ((modify_document_paragraph paragraphs pid newContent).success = false ∧
     (modify_document_paragraph paragraphs pid newContent).available_ids =
       some (paragraphs.map (fun p => p.id)) ∧
     (modify_document_paragraph paragraphs pid newContent).similar_ids =
       some ((paragraphs.map (fun p => p.id)).filter (fun s =>
         subFind (lowerChars pid.data) (lowerChars s.data) ||
         subFind (lowerChars s.data) (lowerChars pid.data))) ∧
     (modify_document_paragraph paragraphs pid newContent).updated_paragraphs = paragraphs) ∧
    ((modify_document_paragraph exParagraphs "para-99" "<p>x</p>").available_ids =
       some ["para-0", "para-1", "para-2"] ∧
     (modify_document_paragraph exParagraphs "para-99" "<p>x</p>").updated_paragraphs =
       exParagraphs) := by
  have hfind := findParaIdx_eq_none pid paragraphs hnomatch
  unfold modify_document_paragraph
  rw [if_neg hne, hfind]
  exact ⟨⟨rfl, rfl, rfl, rfl⟩, by decide, by decide⟩

/-- Witness for the amended C6 at the spec's `para-99` example. -/
theorem c6_not_found_failure_witness :
    (modify_document_paragraph exParagraphs "para-99" "<p>x</p>").success = false ∧
    (modify_document_paragraph exParagraphs "para-99" "<p>x</p>").available_ids =
      some (exParagraphs.map (fun p => p.id)) :=
  ⟨(c6_not_found_failure exParagraphs "para-99" "<p>x</p>" (by decide) (by decide)).1.1,
   (c6_not_found_failure exParagraphs "para-99" "<p>x</p>" (by decide) (by decide)).1.2.1⟩

/-- C6 (counterexample): the empty id matches no stored id, yet its failure
result reports neither `available_ids` nor `similar_ids`, contradicting the
claim's universal quantification over non-matching ids. -/
theorem c6_empty_id_not_reported :
    (∀ p ∈ exParagraphs, p.id ≠ "" ∧ lowerChars p.id.data ≠ lowerChars "".data) ∧
    (modify_document_paragraph exParagraphs "" "<p>x</p>").success = false ∧
    (modify_document_paragraph exParagraphs "" "<p>x</p>").available_ids = Option.none ∧
    (modify_document_paragraph exParagraphs "" "<p>x</p>").similar_ids = Option.none := by
  decide

/-- C7 (amended): the lookup of `modify_document_paragraph` selects the
*first* paragraph, in store order, whose id matches the requested id exactly
or case-insensitively — the per-paragraph exact comparison precedes the
case-insensitive one, but an earlier paragraph's case-insensitive match wins
over a later paragraph's exact match. -/
theorem c7_first_match_wins (paragraphs : List Paragraph) (pid newContent : String)
    (i : Nat) (q : Paragraph) (hne : pid ≠ "") (hget : paragraphs[i]? = some q)
    (hmatch : q.id = pid ∨ lowerChars q.id.data = lowerChars pid.data)
    (hbefore : ∀ p ∈ paragraphs.take i,
      p.id ≠ pid ∧ lowerChars p.id.data ≠ lowerChars pid.data) :
    (modify_document_paragraph paragraphs pid newContent).success = true ∧
    (modify_document_paragraph paragraphs pid newContent).updated_paragraphs =
      updateAt i (fun p => { p with content := newContent, text := stripText newContent })
        paragraphs := by
  have hfind := findParaIdx_eq_some pid paragraphs i q hget hmatch hbefore
  unfold modify_document_paragraph
  rw [if_neg hne, hfind]
  exact ⟨rfl, rfl⟩

/-- Witness for the amended C7: modifying `para-1` in the example store
touches exactly the paragraph at position 1. -/
theorem c7_first_match_wins_witness :
    (modify_document_paragraph exParagraphs "para-1" "<p>n</p>").success = true ∧
    (modify_document_paragraph exParagraphs "para-1" "<p>n</p>").updated_paragraphs =
      updateAt 1 (fun p => { p with content := "<p>n</p>", text := stripText "<p>n</p>" })
        exParagraphs :=
  c7_first_match_wins exParagraphs "para-1" "<p>n</p>" 1
    { id := "para-1", index := 1, content := "<p>A lazy fox sleeps</p>",
      text := "A lazy fox sleeps" }
    (by decide) (by decide) (Or.inl rfl) (by decide)

/-- C7 (counterexample): in a store whose paragraph 0 has id `PARA-0` and
paragraph 1 has id `para-0`, modifying `para-0` rewrites paragraph 0 (the
earlier, case-insensitive match) and leaves the exactly-matching paragraph 1
untouched — exact match anywhere in the store does not take precedence. -/
theorem c7_exact_match_not_preferred :
    ciParagraphs[1]? =
      some { id := "para-0", index := 1, content := "<p>b</p>", text := "b" } ∧
    (modify_document_paragraph ciParagraphs "para-0" "<p>new</p>").updated_paragraphs =
      [{ id := "PARA-0", index := 0, content := "<p>new</p>", text := "new" },
       { id := "para-0", index := 1, content := "<p>b</p>", text := "b" }] := by decide

/-! ## Search lemmas -/

theorem subFind_nil : ∀ l : List Char, subFind [] l = true
  | [] => rfl
  | _ :: _ => rfl

theorem scoreParagraph_nil_query (p : Paragraph) :
    scoreParagraph [] [] p = some (100, "exact") := by
  unfold scoreParagraph
  rw [if_pos]
  exact subFind_nil _

theorem pairwise_of_true {α : Type} {R : α → α → Prop} (hall : ∀ a b, R a b) :
    ∀ l : List α, l.Pairwise R
  | [] => List.Pairwise.nil
  | a :: l => List.Pairwise.cons (fun b _ => hall a b) (pairwise_of_true hall l)

theorem searchCandidates_ws (paragraphs : List Paragraph) :
    searchCandidates paragraphs " " = paragraphs.map exactMatchOf := by
  show paragraphs.filterMap (fun p => (scoreParagraph [] [] p).map (fun sm =>
      ({ paragraph_id := p.id, paragraph_index := p.index, text := p.text,
         paragraph_content := p.content, relevance_score := sm.1,
         match_type := sm.2 } : SearchMatch))) = _
  induction paragraphs with
  | nil => rfl
  | cons p rest ih =>
    rw [List.filterMap_cons, scoreParagraph_nil_query, List.map_cons, ← ih]
    rfl

theorem scoreParagraph_pos (ql : List Char) (qw : List (List Char)) (p : Paragraph)
    (sm : Nat × String) (h : scoreParagraph ql qw p = some sm) : 0 < sm.1 := by
  unfold scoreParagraph at h
  dsimp only at h
  split_ifs at h <;>
    first
      | exact Option.noConfusion h
      | (injection h with h0; subst h0; simp; done)
      | (injection h with h0; subst h0; simp; omega)

theorem searchCandidates_pos (paragraphs : List Paragraph) (query : String) :
    ∀ m ∈ searchCandidates paragraphs query, 0 < m.relevance_score := by
  intro m hm
  unfold searchCandidates at hm
  rw [List.mem_filterMap] at hm
  obtain ⟨p, _, hp⟩ := hm
  rw [Option.map_eq_some'] at hp
  obtain ⟨sm, hsm, hf⟩ := hp
  have hpos := scoreParagraph_pos _ _ p sm hsm
  rw [← hf]
  exact hpos

/-- C10: a whitespace-only query such as `" "` is truthy, so it escapes the
empty-query failure branch; its lower-cased stripped form is the empty
string, which is a substring of every paragraph's text, so *every* paragraph
of a non-empty store is returned as a match with score 100 and type
`exact`. -/
theorem c10_whitespace_query_matches_all (paragraphs : List Paragraph)
    (h : paragraphs ≠ []) :
    (search_document_paragraphs paragraphs " ").found = true ∧
    (search_document_paragraphs paragraphs " ").matches' =
      paragraphs.map exactMatchOf := by
  have hne : (" " : String) ≠ "" := by decide
  have hcand : searchCandidates paragraphs " " = paragraphs.map exactMatchOf :=
    searchCandidates_ws paragraphs
  have hsorted : List.Sorted scoreGE (paragraphs.map exactMatchOf) :=
    List.pairwise_map.mpr (pairwise_of_true (fun _ _ => le_refl 100) paragraphs)
  unfold search_document_paragraphs
  rw [if_neg hne, hcand, List.Sorted.insertionSort_eq hsorted]
  constructor
  · cases paragraphs with
    | nil => exact absurd rfl h
    | cons p rest => rfl
  · rfl

/-- Witness for C10 at the three-paragraph example store. -/
theorem c10_whitespace_query_witness :
    (search_document_paragraphs exParagraphs " ").found = true ∧
    (search_document_paragraphs exParagraphs " ").matches' =
      exParagraphs.map exactMatchOf :=
  c10_whitespace_query_matches_all exParagraphs (by decide)

/-- C5 (amended): for every non-empty query, the result is exactly the
positively-scored candidates (one per paragraph, by the first applicable
branch of the source's cascade, where a heading paragraph that matches
neither exactly nor by any word is excluded without trying the partial or
sequence tiers, and the partial tier counts 10 points per query-word
occurrence, duplicates included), sorted descending by score with ties — and
in fact any correctly-ordered pair — kept in paragraph order; the spec's
worked example behaves as claimed. -/
theorem c5_search_ranking (paragraphs : List Paragraph) (query : String) (h : query ≠ "") :
    ((search_document_paragraphs paragraphs query).matches').Perm
        (searchCandidates paragraphs query) ∧
    List.Sorted scoreGE (search_document_paragraphs paragraphs query).matches' ∧
    (∀ a b, List.Sublist [a, b] (searchCandidates paragraphs query) → scoreGE a b →
        List.Sublist [a, b] (search_document_paragraphs paragraphs query).matches') ∧
    (∀ m ∈ (search_document_paragraphs paragraphs query).matches',
        0 < m.relevance_score) ∧
    (search_document_paragraphs exParagraphs "quick fox").matches' =
      [{ paragraph_id := "para-0", paragraph_index := 0, text := "The quick fox",
         paragraph_content := "<p>The quick fox</p>", relevance_score := 100,
         match_type := "exact" },
       { paragraph_id := "para-1", paragraph_index := 1, text := "A lazy fox sleeps",
         paragraph_content := "<p>A lazy fox sleeps</p>", relevance_score := 60,
         match_type := "partial" }] := by
  have hm : (search_document_paragraphs paragraphs query).matches' =
      (searchCandidates paragraphs query).insertionSort scoreGE := by
    unfold search_document_paragraphs
    rw [if_neg h]
  refine ⟨?_, ?_, ?_, ?_, by decide⟩
  · rw [hm]
    exact List.perm_insertionSort scoreGE _
  · rw [hm]
    exact List.sorted_insertionSort scoreGE _
  · intro a b hsub hab
    rw [hm]
    exact List.pair_sublist_insertionSort hab hsub
  · intro m hmem
    rw [hm] at hmem
    exact searchCandidates_pos paragraphs query m ((List.mem_insertionSort scoreGE).mp hmem)

/-- Witness for the amended C5 at the spec's worked example. -/
theorem c5_search_ranking_witness :
    (search_document_paragraphs exParagraphs "quick fox").matches' =
      [{ paragraph_id := "para-0", paragraph_index := 0, text := "The quick fox",
         paragraph_content := "<p>The quick fox</p>", relevance_score := 100,
         match_type := "exact" },
       { paragraph_id := "para-1", paragraph_index := 1, text := "A lazy fox sleeps",
         paragraph_content := "<p>A lazy fox sleeps</p>", relevance_score := 60,
         match_type := "partial" }] :=
  (c5_search_ranking exParagraphs "quick fox" (by decide)).2.2.2.2

/-- C5 (counterexample): two inputs where the claim's cascade disagrees with
the code.  (1) A heading paragraph (`<h1>xyz</h1>`) against query `"zyx"`:
no tier 1–4 condition holds, and the claim's cascade would fall to the
sequence tier (one character matches in order, so score 5); the code excludes
the paragraph entirely.  (2) Query `"fox fox cat"` against text `"a fox"`:
one *distinct* query word matches, so the claim's partial score is
`50 + 10 = 60`; the code counts per occurrence and returns 70. -/
theorem c5_cascade_not_as_claimed :
    ((search_document_paragraphs [headingSeqPara] "zyx").matches' = [] ∧
      seqCount (trimChars (lowerChars "zyx".data))
        (lowerChars headingSeqPara.text.data) = 1) ∧
    ((search_document_paragraphs [dupWordsPara] "fox fox cat").matches' =
      [{ paragraph_id := "para-0", paragraph_index := 0, text := "a fox",
         paragraph_content := "<p>a fox</p>", relevance_score := 70,
         match_type := "partial" }]) := by decide

/-! ## Outline lemmas -/

theorem convertItems_length (topic : String) : ∀ (s : Nat) (items : List OutlineItem),
    (convertItems topic s items).length = items.length
  | _, [] => rfl
  | s, _ :: rest => by
    simp only [convertItems, List.length_cons, convertItems_length topic (s + 1) rest]

theorem convertItems_getElem (topic : String) : ∀ (s : Nat) (items : List OutlineItem) (i : Nat),
    (convertItems topic s items)[i]? = (items[i]?).map (convertItem topic (s + i))
  | _, [], i => by simp [convertItems]
  | s, it :: rest, 0 => by simp [convertItems]
  | s, it :: rest, i + 1 => by
    have harith : s + 1 + i = s + (i + 1) := by omega
    simp only [convertItems, List.getElem?_cons_succ,
      convertItems_getElem topic (s + 1) rest i, harith]

/-- C2: for every payload the model can return and every
`paragraph_count ∈ [3,12]`, the outline produced by `build_outline` has
length exactly `paragraph_count`; positions holding a payload item are its
conversion (a non-dict item becoming the placeholder entry whose summary is
the topic), and every position beyond the payload items is a padding entry
whose summary is the topic; a long payload is truncated. -/
theorem c2_outline_padded_to_count (payload : OutlinePayload) (topic : String) (count : Nat)
    (h3 : 3 ≤ count) (h12 : count ≤ 12) :
    (build_outline payload topic count).length = count ∧
    (∀ i, i < count → ∀ (hi : i < (outlineItems payload).length),
      (build_outline payload topic count)[i]? =
        some (convertItem topic i ((outlineItems payload).get ⟨i, hi⟩))) ∧
    (∀ i, i < count → (outlineItems payload).length ≤ i →
      ((build_outline payload topic count)[i]?).map OutlineEntry.summary = some topic) ∧
    (∀ i, i < count → ∀ (hi : i < (outlineItems payload).length),
      (outlineItems payload).get ⟨i, hi⟩ = OutlineItem.notDict →
      (build_outline payload topic count)[i]? =
        some { title := placeholderTitle (i + 1), summary := topic }) := by
  have hconvlen : (convertItems topic 0 (outlineItems payload)).length =
      (outlineItems payload).length := convertItems_length topic 0 _
  have main : (build_outline payload topic count).length = count ∧
      (∀ i, i < count → ∀ (hi : i < (outlineItems payload).length),
        (build_outline payload topic count)[i]? =
          some (convertItem topic i ((outlineItems payload).get ⟨i, hi⟩))) ∧
      (∀ i, i < count → (outlineItems payload).length ≤ i →
        ((build_outline payload topic count)[i]?).map OutlineEntry.summary = some topic) := by
    by_cases hemp : (convertItems topic 0 (outlineItems payload)).isEmpty
    · -- the payload contributed nothing: a fresh placeholder outline of full length
      have hitems : (outlineItems payload).length = 0 := by
        rw [← hconvlen]
        exact List.isEmpty_iff_length_eq_zero.mp hemp
      have hbase : outlineBase payload topic count = (List.range count).map
          (fun i => ({ title := placeholderTitle (i + 1), summary := topic } : OutlineEntry)) := by
        unfold outlineBase
        rw [if_pos hemp]
      have hbln : (outlineBase payload topic count).length = count := by
        rw [hbase]
        simp
      have hpad : outlinePadded (outlineBase payload topic count) topic count =
          outlineBase payload topic count := by
        unfold outlinePadded
        rw [if_neg (by omega)]
      have hbuild : build_outline payload topic count = (List.range count).map
          (fun i => ({ title := placeholderTitle (i + 1), summary := topic } : OutlineEntry)) := by
        unfold build_outline
        rw [hpad, hbase, List.take_of_length_le (by simp)]
      refine ⟨by rw [hbuild]; simp, fun i hic hi => absurd hi (by omega), fun i hic _ => ?_⟩
      rw [hbuild, List.getElem?_map, List.getElem?_range hic]
      rfl
    · have hbase : outlineBase payload topic count =
          convertItems topic 0 (outlineItems payload) := by
        unfold outlineBase
        rw [if_neg hemp]
      have hbln : (outlineBase payload topic count).length = (outlineItems payload).length := by
        rw [hbase]
        exact hconvlen
      by_cases hlt : (outlineItems payload).length < count
      · -- short payload: pad to length, no truncation
        have hpad : outlinePadded (outlineBase payload topic count) topic count =
            outlineBase payload topic count ++
              (List.range (count - (outlineBase payload topic count).length)).map
                (fun idx =>
                  ({ title := placeholderTitle ((outlineBase payload topic count).length + 2 * idx + 1), summary := topic } : OutlineEntry)) := by
          unfold outlinePadded
          rw [if_pos (by omega)]
        have hplen : (outlinePadded (outlineBase payload topic count) topic count).length =
            count := by
          rw [hpad]
          simp
          omega
        have hbuild : build_outline payload topic count =
            outlinePadded (outlineBase payload topic count) topic count := by
          unfold build_outline
          rw [List.take_of_length_le (by omega)]
        refine ⟨by rw [hbuild, hplen], fun i hic hi => ?_, fun i hic hge => ?_⟩
        · rw [hbuild, hpad, List.getElem?_append_left (by omega), hbase,
            convertItems_getElem topic 0 _ i, List.getElem?_eq_getElem hi]
          simp [List.get_eq_getElem]
        · rw [hbuild, hpad, List.getElem?_append_right (by omega), List.getElem?_map,
            List.getElem?_range (by omega)]
          rfl
      · -- long payload: plain truncation
        have hpad : outlinePadded (outlineBase payload topic count) topic count =
            outlineBase payload topic count := by
          unfold outlinePadded
          rw [if_neg (by omega)]
        have hbuild : build_outline payload topic count =
            (outlineBase payload topic count).take count := by
          unfold build_outline
          rw [hpad]
        refine ⟨by rw [hbuild]; simp [List.length_take]; omega, fun i hic hi => ?_,
          fun i hic hge => absurd hge (by omega)⟩
        rw [hbuild, List.getElem?_take_of_lt hic, hbase, convertItems_getElem topic 0 _ i,
          List.getElem?_eq_getElem hi]
        simp [List.get_eq_getElem]
  refine ⟨main.1, main.2.1, main.2.2, fun i hic hi hnot => ?_⟩
  rw [main.2.1 i hic hi, hnot]
  rfl

/-- Witness for C2 with a one-item malformed payload and count 5. -/
theorem c2_outline_padded_witness :
    (build_outline (OutlinePayload.array [OutlineItem.notDict, OutlineItem.dict
      (some "T") Option.none]) "topic" 5).length = 5 :=
  (c2_outline_padded_to_count (OutlinePayload.array [OutlineItem.notDict, OutlineItem.dict
    (some "T") Option.none]) "topic" 5 (by decide) (by decide)).1

/-! ## Normalization lemmas -/

theorem pyOr_of_falsy {a b : PyVal} (h : pyTruthy a = false) : pyOr a b = b := by
  simp [pyOr, h]

theorem pyOr_of_truthy {a b : PyVal} (h : pyTruthy a = true) : pyOr a b = a := by
  simp [pyOr, h]

theorem strOrFalsy_cases (v : PyVal) (h : strOrFalsy v = true) :
    (∃ s, v = PyVal.str s) ∨ pyTruthy v = false := by
  cases v <;>
    first
      | exact Or.inl ⟨_, rfl⟩
      | exact Or.inr (by simpa [strOrFalsy] using h)

theorem numericOrFalsy_cases (v : PyVal) (h : numericOrFalsy v = true) :
    numericVal v = true ∨ pyTruthy v = false := by
  unfold numericOrFalsy at h
  simp at h
  exact h.symm

theorem pyInt_numeric (v : PyVal) (h : numericVal v = true) : ∃ n, pyInt v = .ok n := by
  cases v <;>
    first
      | exact ⟨_, rfl⟩
      | simp [numericVal] at h

theorem pyFloat_numeric (v : PyVal) (h : numericVal v = true) : ∃ q, pyFloat v = .ok q := by
  cases v <;>
    first
      | exact ⟨_, rfl⟩
      | simp [numericVal] at h

theorem pyInt_or_default_ok (v w : PyVal) (n : Int) (hv : numericOrFalsy v = true)
    (hw : numericOrFalsy w = true) :
    ∃ m, pyInt (pyOr v (pyOr w (.int n))) = .ok m := by
  by_cases htv : pyTruthy v
  · rw [pyOr_of_truthy htv]
    rcases numericOrFalsy_cases v hv with hnum | hfal
    · exact pyInt_numeric v hnum
    · rw [htv] at hfal
      cases hfal
  · rw [pyOr_of_falsy (by simpa using htv)]
    by_cases htw : pyTruthy w
    · rw [pyOr_of_truthy htw]
      rcases numericOrFalsy_cases w hw with hnum | hfal
      · exact pyInt_numeric w hnum
      · rw [htw] at hfal
        cases hfal
    · rw [pyOr_of_falsy (by simpa using htw)]
      exact ⟨n, rfl⟩

/-- C3 (amended): whenever `normalize_parameters` returns (it can raise — see
C4), the returned record has `paragraph_count ∈ [3,12]`, `temperature ∈
[0,1.5]`, `max_tokens ∈ [600,4000]`; a missing numeric field gets its default
(5 / 0.7 / 1200); a supplied *truthy* (non-zero) in-range temperature is
preserved — the falsy 0.0 is not, see the counterexample — and the spec's
worked example evaluates exactly as claimed. -/
theorem c3_normalize_clamps (raw : RawParams) (p : WriterParameters)
    (h : normalize_parameters raw = .ok p) :
    (3 ≤ p.paragraph_count ∧ p.paragraph_count ≤ 12) ∧
    (0 ≤ p.temperature ∧ p.temperature ≤ 3/2) ∧
    (600 ≤ p.max_tokens ∧ p.max_tokens ≤ 4000) ∧
    (raw.paragraph_count = PyVal.none → raw.segments = PyVal.none →
      p.paragraph_count = 5) ∧
    (raw.temperature = PyVal.none → p.temperature = 7/10) ∧
    (raw.max_tokens = PyVal.none → p.max_tokens = 1200) ∧
    (∀ q : ℚ, raw.temperature = PyVal.float q → 0 < q → q ≤ 3/2 →
      p.temperature = q) ∧
    normalize_parameters exampleRaw = .ok exampleNormalized := by
  unfold normalize_parameters at h
  split at h
  · exact Except.noConfusion h
  rename_i language hLang
  split at h
  · exact Except.noConfusion h
  rename_i pc0 hPc
  split at h
  · exact Except.noConfusion h
  rename_i t0 hT
  split at h
  · exact Except.noConfusion h
  rename_i mt0 hMt
  injection h with h
  subst h
  refine ⟨⟨?_, ?_⟩, ⟨?_, ?_⟩, ⟨?_, ?_⟩, ?_, ?_, ?_, ?_, ?_⟩
  · show 3 ≤ (if (if pc0 < 3 then 3 else pc0) > 12 then 12 else if pc0 < 3 then 3 else pc0)
    split_ifs <;> omega
  · show (if (if pc0 < 3 then 3 else pc0) > 12 then 12 else if pc0 < 3 then 3 else pc0) ≤ 12
    split_ifs <;> omega
  · exact le_max_left 0 _
  · exact max_le (by norm_num) (min_le_right _ _)
  · exact le_max_left 600 _
  · exact max_le (by norm_num) (min_le_right _ _)
  · intro hpcn hsegn
    rw [hpcn, hsegn] at hPc
    simp [pyOr, pyTruthy, pyInt] at hPc
    show (if (if pc0 < 3 then 3 else pc0) > 12 then 12 else if pc0 < 3 then 3 else pc0) = 5
    omega
  · intro htn
    rw [htn] at hT
    simp [pyOr, pyTruthy, pyFloat] at hT
    show max 0 (min t0 (3/2)) = 7/10
    rw [← hT]
    norm_num
  · intro hmtn
    rw [hmtn] at hMt
    simp [pyOr, pyTruthy, pyInt] at hMt
    show max 600 (min mt0 4000) = 1200
    rw [← hMt]
    norm_num
  · intro q hq h0 h32
    rw [hq] at hT
    have hqne : (q != 0) = true := by simpa using ne_of_gt h0
    rw [pyOr_of_truthy (by simpa [pyTruthy] using hqne)] at hT
    simp [pyFloat] at hT
    show max 0 (min t0 (3/2)) = q
    rw [← hT, min_eq_left h32, max_eq_right (le_of_lt h0)]
  · simp [normalize_parameters, exampleRaw, exampleNormalized, pyOr, pyTruthy, pyInt,
      pyFloat, pyLower, pyStr, lowerStr, lowerChars, charLower]
    norm_num

/-- Witness for the amended C3 at the spec's worked example. -/
theorem c3_normalize_clamps_witness :
    3 ≤ exampleNormalized.paragraph_count ∧ exampleNormalized.paragraph_count ≤ 12 ∧
    exampleNormalized.temperature = 3/2 ∧ exampleNormalized.max_tokens = 600 :=
  ⟨(c3_normalize_clamps exampleRaw exampleNormalized (by
      simp [normalize_parameters, exampleRaw, exampleNormalized, pyOr, pyTruthy, pyInt,
        pyFloat, pyLower, pyStr, lowerStr, lowerChars, charLower]
      norm_num)).1.1,
   (c3_normalize_clamps exampleRaw exampleNormalized (by
      simp [normalize_parameters, exampleRaw, exampleNormalized, pyOr, pyTruthy, pyInt,
        pyFloat, pyLower, pyStr, lowerStr, lowerChars, charLower]
      norm_num)).1.2,
   by norm_num [exampleNormalized], by norm_num [exampleNormalized]⟩

/-- C3 (counterexample): the in-range temperature 0.0, when supplied, is not
preserved: `raw.get("temperature") or 0.7` treats the falsy 0.0 as missing
and the result carries the default 0.7 ≠ 0.0. -/
theorem c3_zero_temperature_not_preserved :
    tempZeroRaw.temperature = PyVal.float 0 ∧
    normalize_parameters tempZeroRaw = .ok tempZeroNormalized ∧
    tempZeroNormalized.temperature = 7/10 ∧ (7/10 : ℚ) ≠ 0 := by
  refine ⟨rfl, ?_, rfl, by norm_num⟩
  simp [normalize_parameters, tempZeroRaw, tempZeroNormalized, pyOr, pyTruthy, pyInt,
    pyFloat, pyLower, pyStr, lowerStr, lowerChars, charLower]
  norm_num

/-- C4 (amended): `normalize_parameters` returns a record — raising no
exception — whenever each numeric field (`paragraph_count`, `segments`,
`temperature`, `max_tokens`) is falsy (treated as missing) or numeric, and
`language` is falsy or a string; the *other* fields may hold arbitrary
values.  It is not total: a truthy non-numeric string in a numeric field
raises `ValueError` (see the counterexample), and a truthy non-string
`language` raises `AttributeError`. -/
theorem c4_normalize_total_on_sane_fields (raw : RawParams)
    (hpc : numericOrFalsy raw.paragraph_count = true)
    (hseg : numericOrFalsy raw.segments = true)
    (ht : numericOrFalsy raw.temperature = true)
    (hmt : numericOrFalsy raw.max_tokens = true)
    (hlang : strOrFalsy raw.language = true) :
    ∃ p, normalize_parameters raw = .ok p := by
  obtain ⟨lang, hLang⟩ : ∃ s, pyLower (pyOr raw.language (.str "zh")) = .ok s := by
    rcases strOrFalsy_cases raw.language hlang with ⟨s, hs⟩ | hfal
    · rw [hs]
      by_cases hse : s = ""
      · rw [pyOr_of_falsy (by simp [pyTruthy, hse])]
        exact ⟨_, rfl⟩
      · rw [pyOr_of_truthy (by simp [pyTruthy, hse])]
        exact ⟨_, rfl⟩
    · rw [pyOr_of_falsy hfal]
      exact ⟨_, rfl⟩
  obtain ⟨pc0, hPc⟩ := pyInt_or_default_ok raw.paragraph_count raw.segments 5 hpc hseg
  obtain ⟨t0, hT⟩ : ∃ q, pyFloat (pyOr raw.temperature (.float (7/10))) = .ok q := by
    by_cases htv : pyTruthy raw.temperature
    · rw [pyOr_of_truthy htv]
      rcases numericOrFalsy_cases _ ht with hnum | hfal
      · exact pyFloat_numeric _ hnum
      · rw [htv] at hfal
        cases hfal
    · rw [pyOr_of_falsy (by simpa using htv)]
      exact ⟨_, rfl⟩
  obtain ⟨mt0, hMt⟩ : ∃ m, pyInt (pyOr raw.max_tokens (PyVal.int 1200)) = .ok m := by
    by_cases htv : pyTruthy raw.max_tokens
    · rw [pyOr_of_truthy htv]
      rcases numericOrFalsy_cases _ hmt with hnum | hfal
      · exact pyInt_numeric _ hnum
      · rw [htv] at hfal
        cases hfal
    · rw [pyOr_of_falsy (by simpa using htv)]
      exact ⟨1200, rfl⟩
  unfold normalize_parameters
  rw [hLang, hPc, hT, hMt]
  exact ⟨_, rfl⟩

/-- Witness for the amended C4 at the spec's worked example input. -/
theorem c4_normalize_total_witness :
    ∃ p, normalize_parameters exampleRaw = .ok p :=
  c4_normalize_total_on_sane_fields exampleRaw (by decide) (by decide) (by decide)
    (by decide) (by decide)

/-- C4 (counterexample): the model returning the truthy non-numeric string
`"abc"` in `paragraph_count` makes `int(...)` raise `ValueError`: parameter
extraction can fail. -/
theorem c4_raises_on_nonnumeric_string :
    abcCountRaw.paragraph_count = PyVal.str "abc" ∧
    pyTruthy (PyVal.str "abc") = true ∧
    normalize_parameters abcCountRaw = .error .valueError :=
  ⟨rfl, rfl, rfl⟩


end AIDocMaster
